import Mathlib

/-!
Verification of the tinytrace span-lifecycle core
(`src/include/tinytrace/tinytrace.hpp`).

The embedding below follows the source header. The source is a header whose
allocator (`TraceSpan::next_span_id`), span-guard constructor/destructor and
`TraceContext::current_span_id` accessor are implemented, while the bodies of
`TraceContext::push_span`, `TraceContext::pop_span`,
`TraceBackend::set_output_file`, `TraceBackend::write_span`,
`TraceBackend::flush` and `TraceSpan::emit_span` are empty; those operations
are modelled from the specification (each such definition carries a
`Modelled from the spec:` doc comment).

Machine integers (`uint64_t`) are modelled as `Nat` with explicit reduction
modulo `2 ^ 64` where overflow matters; `std::chrono` time points are modelled
as nonnegative integer nanosecond readings of the monotonic clock.
-/

namespace Tinytrace

/-- Modulus of the `uint64_t` span-id counter. -/
def u64 : Nat := 2 ^ 64

/-- One call of `TraceSpan::next_span_id` (header lines 118-121): the shared
atomic `counter` starts at 1 and `fetch_add(1)` returns the old value, wrapping
modulo `2 ^ 64`.  Input: current counter value; output: (returned id, new
counter value). -/
def next_span_id (counter : Nat) : Nat × Nat :=
  (counter % u64, (counter + 1) % u64)

/-- The ids returned by `n` consecutive calls of `next_span_id` starting from
counter value `c` (the linearization of the atomic fetch-adds). -/
def allocList : Nat → Nat → List Nat
  | 0, _ => []
  | n + 1, c => (next_span_id c).1 :: allocList n (next_span_id c).2

/-- Thread-local nesting state of one thread (`TraceContext`): the stack of
active span ids (`span_stack_`). -/
structure TraceContext where
  span_stack : List Nat
deriving Repr, DecidableEq

/-- Modelled from the spec: `TraceContext::current_span_id` (the spec's
`current()`) returns the top of this thread's stack, or 0 if the stack is
empty.  The source accessor returns the cached member `current_span_id_`,
but the code maintaining that cache (`push_span`/`pop_span`) is empty in the
header, so the accessor is modelled by the spec's stack-top reading. -/
def TraceContext.current_span_id (c : TraceContext) : Nat :=
  c.span_stack.headD 0

/-- Modelled from the spec: `TraceContext::push_span` (the spec's `enter(id)`)
has an empty body in the header; the spec says it pushes `id` onto this
thread's stack, making it the new current. -/
def TraceContext.push_span (c : TraceContext) (id : Nat) : TraceContext :=
  ⟨id :: c.span_stack⟩

/-- Modelled from the spec: `TraceContext::pop_span` (the spec's `leave(id)`)
has an empty body in the header (and the source signature takes no argument);
the spec says it removes the top of the stack when the top equals `id`, and
otherwise signals a broken nesting invariant instead of mutating the stack.
`none` is the fail-fast diagnostic outcome. -/
def TraceContext.pop_span (c : TraceContext) (id : Nat) : Option TraceContext :=
  match c.span_stack with
  | [] => none
  | top :: rest => if top = id then some ⟨rest⟩ else none

/-- The data stored in one live span guard (`SpanData`, header lines 26-32).
Times are monotonic-clock readings in nanoseconds; thread ids are opaque
tokens modelled as `Nat`. -/
structure SpanData where
  name : String
  span_id : Nat
  parent_id : Nat
  start_time : Nat
  thread_id : Nat
deriving Repr, DecidableEq

/-- A completed span record as submitted to the sink: the five fields of the
output wire format.  `duration_us` is the signed 64-bit representation of
`std::chrono::microseconds`. -/
structure SpanRecord where
  name : String
  span_id : Nat
  parent_id : Nat
  duration_us : Int
  thread_id : Nat
deriving Repr, DecidableEq

/-- `std::chrono::duration_cast<microseconds>` applied to a nanosecond
difference: integer division truncating toward zero (header line 102). -/
def durationCastUs (diffNs : Int) : Int := Int.tdiv diffNs 1000

/-- The record built by the span-guard destructor for guard data `sd`
destroyed at monotonic time `endTime` (header lines 100-106 and spec §4.3:
`SpanRecord{name, id, parent, duration, thread_id}`). -/
def mkRecord (sd : SpanData) (endTime : Nat) : SpanRecord :=
  ⟨sd.name, sd.span_id, sd.parent_id,
    durationCastUs ((endTime : Int) - (sd.start_time : Int)), sd.thread_id⟩

/-- The character of one decimal digit. -/
def digitToChar (d : Nat) : Char :=
  match d % 10 with
  | 0 => '0' | 1 => '1' | 2 => '2' | 3 => '3' | 4 => '4'
  | 5 => '5' | 6 => '6' | 7 => '7' | 8 => '8' | _ => '9'

/-- Decimal rendering of a natural number (the serialization the sink would
produce with `std::to_string` / stream insertion). -/
def renderNat (n : Nat) : List Char :=
  if n = 0 then ['0'] else ((Nat.digits 10 n).map digitToChar).reverse

/-- Decimal rendering of a signed 64-bit microsecond count. -/
def renderInt (i : Int) : List Char :=
  if i < 0 then '-' :: renderNat i.natAbs else renderNat i.natAbs

/-- Modelled from the spec: the serialization performed by the sink's `emit`
(`TraceSpan::emit_span` and `TraceBackend::write_span` have empty bodies in
the header).  Spec §4.4: one self-contained line-oriented text record, field
order `name`, `span_id`, `parent_id`, `duration_us`, `thread_id`, with a
trailing newline. -/
def serializeChars (r : SpanRecord) : List Char :=
  "name=".data ++ r.name.data
    ++ " span_id=".data ++ renderNat r.span_id
    ++ " parent_id=".data ++ renderNat r.parent_id
    ++ " duration_us=".data ++ renderInt r.duration_us
    ++ " thread_id=".data ++ renderNat r.thread_id ++ ['\n']

/-- The serialized line as a string. -/
def serializeRecord (r : SpanRecord) : String := ⟨serializeChars r⟩

/-- State of the process-wide sink (`TraceBackend`): the configured
destination (`use_file_`, the file path) and the lines so far written to each
destination. -/
structure TraceBackend where
  use_file : Bool
  file_path : String
  console : List String
  file_lines : List String
deriving Repr, DecidableEq

/-- Modelled from the spec: `TraceBackend::set_output_file` has an empty body
in the header; the spec's `configure(destination)` switches the output target
to the named file. -/
def TraceBackend.set_output_file (b : TraceBackend) (path : String) : TraceBackend :=
  { b with use_file := true, file_path := path }

/-- Modelled from the spec: `TraceBackend::write_span` has an empty body in
the header; the spec says `emit` appends the serialized line to the configured
destination (default console, or the configured file) and swallows any I/O
failure internally, at worst losing the record.  `ok` is the outcome of the
underlying I/O operation; on failure the line is lost and the call still
returns normally. -/
def TraceBackend.write_span (b : TraceBackend) (line : String) (ok : Bool) : TraceBackend :=
  if ok then
    if b.use_file then { b with file_lines := b.file_lines ++ [line] }
    else { b with console := b.console ++ [line] }
  else b

/-- Modelled from the spec: `TraceBackend::flush` has an empty body in the
header; the model has no buffer (every `write_span` appends directly), so
flushing leaves the sink state unchanged. -/
def TraceBackend.flush (b : TraceBackend) : TraceBackend := b

/-- Whole-system state: the allocator counter, the per-thread nesting
contexts (`thread_local TraceContext`), the per-thread stacks of live span
guards (the C++ call-stack of `TraceSpan` objects), the sequence of records
submitted to the sink's emit operation, the sink state, and the count of
fail-fast nesting diagnostics reported. -/
structure SysState where
  counter : Nat
  ctxs : Nat → TraceContext
  live : Nat → List SpanData
  records : List SpanRecord
  backend : TraceBackend
  diagnostics : Nat

/-- Initial state of the process: counter 1, every thread's context empty,
no live guards, nothing emitted, console destination. -/
def initState : SysState :=
  ⟨1, fun _ => ⟨[]⟩, fun _ => [], [], ⟨false, "", [], []⟩, 0⟩

/-- Observable lifecycle events.  `openSpan` is the `TraceSpan` constructor
run on thread `tid` at monotonic time `tm`; `closeSpan` is the destructor of
the innermost live guard of thread `tid` at time `tm`; `setOutput` and
`flushEv` are the helper entry points. -/
inductive Event where
  | openSpan (nm : String) (tid : Nat) (tm : Nat)
  | closeSpan (tid : Nat) (tm : Nat)
  | setOutput (path : String)
  | flushEv
deriving Repr, DecidableEq

/-- One lifecycle step.  `openSpan` follows the `TraceSpan` constructor
(header lines 93-98): allocate the id, read the parent from the thread's
context, record start time and thread id, then push the id.  `closeSpan`
follows the destructor (header lines 100-106): compute the duration, pop the
guard's id (fail-fast diagnostic on mismatch), build the record and emit it
through the sink, whose underlying I/O outcome is `ok`. -/
def step (s : SysState) (e : Event) (ok : Bool) : SysState :=
  match e with
  | .openSpan nm tid tm =>
    let idc := next_span_id s.counter
    let sd : SpanData := ⟨nm, idc.1, (s.ctxs tid).current_span_id, tm, tid⟩
    { s with
      counter := idc.2
      ctxs := fun t => if t = tid then (s.ctxs tid).push_span sd.span_id else s.ctxs t
      live := fun t => if t = tid then sd :: s.live t else s.live t }
  | .closeSpan tid tm =>
    match s.live tid with
    | [] => s
    | sd :: rest =>
      let r := mkRecord sd tm
      let popped := (s.ctxs tid).pop_span sd.span_id
      { s with
        ctxs := fun t => if t = tid then popped.getD (s.ctxs tid) else s.ctxs t
        live := fun t => if t = tid then rest else s.live t
        records := s.records ++ [r]
        backend := s.backend.write_span (serializeRecord r) ok
        diagnostics := s.diagnostics + (if popped = none then 1 else 0) }
  | .setOutput path => { s with backend := s.backend.set_output_file path }
  | .flushEv => { s with backend := s.backend.flush }

/-- Run a sequence of events, each paired with the I/O outcome of its sink
write (irrelevant for events that do not write). -/
def runF (s : SysState) : List (Event × Bool) → SysState
  | [] => s
  | p :: rest => runF (step s p.1 p.2) rest

/-- Run a sequence of events with all sink writes succeeding. -/
def run (s : SysState) (evs : List Event) : SysState :=
  runF s (evs.map (fun e => (e, true)))

/-- A structured single-thread program: the lexical scopes of the C++ client
code.  `spanScope nm body` is a block that constructs a `TraceSpan nm` guard
and runs `body` inside it; `throwErr` raises an exception that unwinds the
enclosing scopes; `work dt` advances the monotonic clock by `dt`
nanoseconds. -/
inductive Stmt where
  | skip
  | work (dt : Nat)
  | seqc (a b : Stmt)
  | spanScope (nm : String) (body : Stmt)
  | throwErr
deriving Repr, DecidableEq

/-- Whether executing the statement raises an exception that escapes it. -/
def throws : Stmt → Bool
  | .skip => false
  | .work _ => false
  | .seqc a b => throws a || throws b
  | .spanScope _ body => throws body
  | .throwErr => true

/-- The number of span guards whose construction actually runs when the
statement executes (scopes after an exception are skipped). -/
def enteredCount : Stmt → Nat
  | .skip => 0
  | .work _ => 0
  | .seqc a b => enteredCount a + (if throws a then 0 else enteredCount b)
  | .spanScope _ body => 1 + enteredCount body
  | .throwErr => 0

/-- Execute a structured program on thread 0.  The state pairs the system
state with the monotonic clock.  The returned `Bool` is true when an
exception is propagating.  A `spanScope`'s guard destructor runs on every
exit path of the scope: after normal completion of the body and equally
during exception unwind — the close `step` is performed whether or not the
body threw. -/
def execStmt : Stmt → SysState × Nat → (SysState × Nat) × Bool
  | .skip, st => (st, false)
  | .work dt, st => ((st.1, st.2 + dt), false)
  | .seqc a b, st =>
    let ra := execStmt a st
    if ra.2 then (ra.1, true) else execStmt b ra.1
  | .spanScope nm body, st =>
    let s1 := step st.1 (.openSpan nm 0 st.2) true
    let rb := execStmt body (s1, st.2)
    ((step rb.1.1 (.closeSpan 0 rb.1.2) true, rb.1.2), rb.2)
  | .throwErr, st => (st, true)

/-- The ids of `n` consecutive allocations from counter `c` are
`c, c+1, ..., c+n-1` as long as the counter does not wrap. -/
lemma allocList_eq (n : Nat) : ∀ c : Nat, c + n ≤ u64 →
    allocList n c = (List.range n).map (fun k => c + k) := by
  induction n with
  | zero => intro c _; rfl
  | succ m ih =>
    intro c h
    have h1 : c % u64 = c := Nat.mod_eq_of_lt (by omega)
    have hstep : allocList (m + 1) c = c :: allocList m ((c + 1) % u64) := by
      simp [allocList, next_span_id, h1]
    rw [hstep, List.range_succ_eq_map, List.map_cons, List.map_map]
    congr 1
    cases m with
    | zero => rfl
    | succ k =>
      have h2 : (c + 1) % u64 = c + 1 := Nat.mod_eq_of_lt (by omega)
      rw [h2, ih (c + 1) (by omega)]
      apply List.map_congr_left
      intro j _
      simp [Function.comp]
      omega

/-- C2: the identity allocator returns strictly increasing 64-bit values
across any (linearized) sequence of fewer than `2 ^ 64` calls; the first
returned value is 1, no returned value is 0, and all returned values are
pairwise distinct. -/
theorem span_ids_strictly_increasing (n : Nat) (h : n < u64) :
    allocList n 1 = (List.range n).map (fun k => k + 1)
    ∧ List.Pairwise (· < ·) (allocList n 1)
    ∧ (0 < n → (allocList n 1).head? = some 1)
    ∧ 0 ∉ allocList n 1
    ∧ (allocList n 1).Nodup := by
  have he : allocList n 1 = (List.range n).map (fun k => k + 1) := by
    rw [allocList_eq n 1 (by omega)]
    apply List.map_congr_left
    intro j _
    omega
  have hpw : List.Pairwise (· < ·) (allocList n 1) := by
    rw [he, List.pairwise_map]
    exact (List.pairwise_lt_range n).imp (by omega)
  refine ⟨he, hpw, ?_, ?_, ?_⟩
  · intro hn
    rw [he]
    cases n with
    | zero => omega
    | succ m => rw [List.range_succ_eq_map]; rfl
  · rw [he]
    simp
  · exact hpw.imp (fun hlt => by omega)

/-- Closed instance of `span_ids_strictly_increasing` at `n = 3`. -/
theorem span_ids_strictly_increasing_witness :
    allocList 3 1 = (List.range 3).map (fun k => k + 1)
    ∧ List.Pairwise (· < ·) (allocList 3 1)
    ∧ (0 < 3 → (allocList 3 1).head? = some 1)
    ∧ 0 ∉ allocList 3 1
    ∧ (allocList 3 1).Nodup :=
  span_ids_strictly_increasing 3 (by decide)

/-- C4: after `enter(id)` (`push_span`) the context's `current()`
(`current_span_id`) returns `id`, and an empty context's `current()`
returns 0. -/
theorem enter_sets_current (c : TraceContext) (id : Nat) :
    (c.push_span id).current_span_id = id
    ∧ (TraceContext.mk []).current_span_id = 0 :=
  ⟨rfl, rfl⟩

/-- C5: `leave` (`pop_span`) removes exactly the top of the stack, so
`enter(id)` followed by `leave(id)` restores the context, and in particular
`current()` returns again what it returned before the `enter`. -/
theorem enter_leave_roundtrip (c : TraceContext) (id : Nat) :
    (c.push_span id).pop_span id = some c
    ∧ ((c.push_span id).pop_span id).map TraceContext.current_span_id
        = some c.current_span_id := by
  constructor
  · simp [TraceContext.push_span, TraceContext.pop_span]
  · simp [TraceContext.push_span, TraceContext.pop_span]

/-- C6: `leave(id)` (`pop_span`) reports the fail-fast diagnostic outcome
(`none`) exactly when the stack is empty or its top differs from `id`; and
when it succeeds it has removed exactly the matching top, leaving the rest of
the stack untouched. -/
theorem leave_mismatch_fail_fast (c : TraceContext) (id : Nat) :
    (c.pop_span id = none ↔ c.span_stack.head? ≠ some id)
    ∧ ∀ c', c.pop_span id = some c' → c.span_stack = id :: c'.span_stack := by
  constructor
  · cases hs : c.span_stack with
    | nil => simp [TraceContext.pop_span, hs]
    | cons top rest =>
      by_cases htop : top = id <;>
        simp [TraceContext.pop_span, hs, htop]
  · intro c' hc'
    obtain ⟨stack⟩ := c
    cases stack with
    | nil => simp [TraceContext.pop_span] at hc'
    | cons top rest =>
      by_cases htop : top = id
      · have hsome : some (⟨rest⟩ : TraceContext) = some c' := by
          simpa [TraceContext.pop_span, htop] using hc'
        cases hsome
        simp [htop]
      · simp [TraceContext.pop_span, htop] at hc'

/-- Closed instance of `leave_mismatch_fail_fast`: popping 5 from the
singleton stack `[5]` succeeds and leaves the empty stack. -/
theorem leave_mismatch_fail_fast_witness :
    (TraceContext.mk [5]).span_stack = 5 :: (TraceContext.mk []).span_stack :=
  (leave_mismatch_fail_fast ⟨[5]⟩ 5).2 ⟨[]⟩ (by simp [TraceContext.pop_span])

/-- Popping a context whose stack provably starts with `top` succeeds and
returns the rest. -/
lemma pop_span_of_stack_cons (c : TraceContext) (top : Nat) (rest : List Nat)
    (hs : c.span_stack = top :: rest) : c.pop_span top = some ⟨rest⟩ := by
  obtain ⟨stack⟩ := c
  cases hs
  simp [TraceContext.pop_span]

/-- Coherence: each thread's context stack is exactly the ids of that
thread's live guards, innermost first. -/
def Coherent (s : SysState) : Prop :=
  ∀ tid, (s.ctxs tid).span_stack = (s.live tid).map SpanData.span_id

lemma coherent_initState : Coherent initState := fun _ => rfl

lemma coherent_step (s : SysState) (e : Event) (ok : Bool) (h : Coherent s) :
    Coherent (step s e ok) := by
  cases e with
  | openSpan nm tid tm =>
    intro t
    by_cases ht : t = tid <;>
      simp [step, ht, TraceContext.push_span, h t, h tid]
  | closeSpan tid tm =>
    intro t
    cases hl : s.live tid with
    | nil => simp [step, hl, h t]
    | cons sd rest =>
      have hc : (s.ctxs tid).span_stack = sd.span_id :: rest.map SpanData.span_id := by
        rw [h tid, hl]; rfl
      have hpop : (s.ctxs tid).pop_span sd.span_id
          = some ⟨rest.map SpanData.span_id⟩ :=
        pop_span_of_stack_cons _ _ _ hc
      by_cases ht : t = tid <;>
        simp [step, hl, hpop, ht, h t]
  | setOutput path => exact h
  | flushEv => exact h

lemma coherent_runF (l : List (Event × Bool)) : ∀ s : SysState, Coherent s →
    Coherent (runF s l) := by
  induction l with
  | nil => intro s h; exact h
  | cons p rest ih => intro s h; exact ih _ (coherent_step _ _ _ h)

lemma coherent_run (evs : List Event) : Coherent (run initState evs) :=
  coherent_runF _ _ coherent_initState

/-- C1: whatever sequence of lifecycle events has happened, a span created
next on thread `tid` carries as its `parent_id` the `span_id` of the
innermost still-live span of that thread, or 0 if that thread has no live
span; and the destructor's record carries that `parent_id` unchanged. -/
theorem span_parent_is_innermost_active (evs : List Event) (nm : String)
    (tid tm : Nat) :
    (((step (run initState evs) (Event.openSpan nm tid tm) true).live tid).map
        SpanData.parent_id).head?
      = some ((((run initState evs).live tid).map SpanData.span_id).headD 0)
    ∧ ∀ (sd : SpanData) (t : Nat), (mkRecord sd t).parent_id = sd.parent_id := by
  constructor
  · have h := coherent_run evs
    simp [step]
    rw [TraceContext.current_span_id, h tid]
    cases (run initState evs).live tid <;> rfl
  · intro sd t
    rfl

/-- The opening step leaves the emitted-record sequence unchanged. -/
lemma step_records_open (s : SysState) (nm : String) (tid tm : Nat) (ok : Bool) :
    (step s (.openSpan nm tid tm) ok).records = s.records := rfl

/-- The closing step appends exactly one record — the record of the guard
being destroyed — and nothing when the thread has no live guard. -/
lemma step_records_close (s : SysState) (tid tm : Nat) (ok : Bool) :
    (step s (.closeSpan tid tm) ok).records
      = s.records ++ (match s.live tid with
          | [] => []
          | sd :: _ => [mkRecord sd tm]) := by
  cases hl : s.live tid with
  | nil => simp [step, hl]
  | cons sd rest => simp [step, hl]

/-- The closing step pops exactly the top of the thread's live-guard stack. -/
lemma step_live_close (s : SysState) (tid tm : Nat) (ok : Bool) :
    (step s (.closeSpan tid tm) ok).live
      = fun t => if t = tid then (s.live tid).tail else s.live t := by
  cases hl : s.live tid with
  | nil =>
    funext t
    by_cases ht : t = tid <;> simp [step, hl, ht]
  | cons sd rest =>
    funext t
    by_cases ht : t = tid <;> simp [step, hl, ht]

/-- The opening step pushes exactly one new guard on the thread's
live-guard stack. -/
lemma step_live_open (s : SysState) (nm : String) (tid tm : Nat) (ok : Bool) :
    (step s (.openSpan nm tid tm) ok).live
      = fun t => if t = tid then
          ⟨nm, (next_span_id s.counter).1, (s.ctxs tid).current_span_id, tm, tid⟩
            :: s.live t
        else s.live t := rfl

/-- Executing a structured program restores every thread's live-guard stack:
each scope's guard is destroyed on every exit path, normal or unwinding. -/
lemma execStmt_live (p : Stmt) : ∀ st : SysState × Nat,
    (execStmt p st).1.1.live = st.1.live := by
  induction p with
  | skip => intro st; rfl
  | work dt => intro st; rfl
  | throwErr => intro st; rfl
  | seqc a b iha ihb =>
    intro st
    simp only [execStmt]
    by_cases hth : (execStmt a st).2
    · rw [if_pos hth]
      exact iha st
    · rw [if_neg hth]
      rw [ihb _, iha st]
  | spanScope nm body ih =>
    intro st
    simp only [execStmt]
    rw [step_live_close, ih _, step_live_open]
    funext t
    by_cases ht : t = 0 <;> simp [ht]

/-- The propagating-exception flag of an execution is determined by the
program. -/
lemma execStmt_throws (p : Stmt) : ∀ st : SysState × Nat,
    (execStmt p st).2 = throws p := by
  induction p with
  | skip => intro st; rfl
  | work dt => intro st; rfl
  | throwErr => intro st; rfl
  | seqc a b iha ihb =>
    intro st
    simp only [execStmt, throws]
    by_cases hth : (execStmt a st).2
    · rw [if_pos hth]
      have ha : throws a = true := by rw [← iha st]; exact hth
      simp [ha]
    · rw [if_neg hth]
      have ha : throws a = false := by rw [← iha st]; simpa using hth
      simp [ha, ihb]
  | spanScope nm body ih =>
    intro st
    simp only [execStmt, throws]
    exact ih _

/-- Every span scope actually entered during execution submits exactly one
record, on normal exit and on exception unwind alike. -/
lemma execStmt_records_len (p : Stmt) : ∀ st : SysState × Nat,
    (execStmt p st).1.1.records.length
      = st.1.records.length + enteredCount p := by
  induction p with
  | skip => intro st; simp [execStmt, enteredCount]
  | work dt => intro st; simp [execStmt, enteredCount]
  | throwErr => intro st; simp [execStmt, enteredCount]
  | seqc a b iha ihb =>
    intro st
    simp only [execStmt, enteredCount]
    by_cases hth : (execStmt a st).2
    · rw [if_pos hth]
      have ha : throws a = true := by rw [← execStmt_throws a st]; exact hth
      simp [ha, iha st]
    · rw [if_neg hth]
      have ha : throws a = false := by rw [← execStmt_throws a st]; simpa using hth
      simp [ha, ihb _, iha st]
      omega
  | spanScope nm body ih =>
    intro st
    simp only [execStmt, enteredCount]
    rw [step_records_close, execStmt_live, step_live_open]
    simp [ih _, step_records_open]
    omega

/-- C3: a guard destruction submits exactly one completed record, carrying
the guard's name, span id, parent id, computed duration and thread id; and
across a structured program every entered span scope - whether it exits
normally or by exception unwind - contributes exactly one emitted record. -/
theorem destruction_emits_exactly_one_record :
    (∀ (s : SysState) (tid tm : Nat) (ok : Bool),
      (step s (.closeSpan tid tm) ok).records
        = s.records ++ (match s.live tid with
            | [] => []
            | sd :: _ => [mkRecord sd tm]))
    ∧ (∀ (sd : SpanData) (tm : Nat),
        mkRecord sd tm = ⟨sd.name, sd.span_id, sd.parent_id,
          durationCastUs ((tm : Int) - (sd.start_time : Int)), sd.thread_id⟩)
    ∧ (∀ (p : Stmt) (st : SysState × Nat),
        (execStmt p st).1.1.records.length
          = st.1.records.length + enteredCount p) :=
  ⟨step_records_close, fun _ _ => rfl, execStmt_records_len⟩

/-- With a monotonic clock (`start ≤ end`), the destructor's
`duration_cast` computes exactly the natural-number quotient of the elapsed
nanoseconds by 1000. -/
lemma mkRecord_duration_eq (sd : SpanData) (endTime : Nat)
    (h : sd.start_time ≤ endTime) :
    (mkRecord sd endTime).duration_us
      = (((endTime - sd.start_time) / 1000 : Nat) : Int) := by
  show durationCastUs ((endTime : Int) - (sd.start_time : Int)) = _
  rw [durationCastUs, ← Int.ofNat_sub h]
  have h1000 : (1000 : Int) = ((1000 : Nat) : Int) := rfl
  rw [h1000, ← Int.ofNat_tdiv]

/-- A concrete guard datum used by the closed witness instances. -/
def sampleSpanData : SpanData := ⟨"op", 1, 0, 100, 7⟩

/-- C8: a record's duration is the non-negative number of whole microseconds
elapsed on the monotonic clock between guard construction and
destruction. -/
theorem duration_is_elapsed_microseconds (sd : SpanData) (endTime : Nat)
    (h : sd.start_time ≤ endTime) :
    (mkRecord sd endTime).duration_us
        = (((endTime - sd.start_time) / 1000 : Nat) : Int)
    ∧ 0 ≤ (mkRecord sd endTime).duration_us := by
  have he := mkRecord_duration_eq sd endTime h
  exact ⟨he, by rw [he]; exact Int.ofNat_nonneg _⟩

/-- Closed instance of `duration_is_elapsed_microseconds`: a guard started
at 100 ns and destroyed at 2600 ns. -/
theorem duration_is_elapsed_microseconds_witness :
    (mkRecord sampleSpanData 2600).duration_us
        = (((2600 - sampleSpanData.start_time) / 1000 : Nat) : Int)
    ∧ 0 ≤ (mkRecord sampleSpanData 2600).duration_us :=
  duration_is_elapsed_microseconds sampleSpanData 2600 (by decide)

/-- C10: the destructor truncates the elapsed time toward zero to whole
microseconds: a scope living less than one microsecond reports duration 0,
and the sub-microsecond remainder is always discarded, never rounded up. -/
theorem duration_truncates_sub_microsecond (sd : SpanData) (endTime : Nat)
    (h : sd.start_time ≤ endTime) :
    (endTime - sd.start_time < 1000 → (mkRecord sd endTime).duration_us = 0)
    ∧ 1000 * (mkRecord sd endTime).duration_us
        ≤ (endTime : Int) - (sd.start_time : Int)
    ∧ (endTime : Int) - (sd.start_time : Int)
        < 1000 * ((mkRecord sd endTime).duration_us + 1) := by
  have he := mkRecord_duration_eq sd endTime h
  rw [he]
  refine ⟨?_, ?_, ?_⟩
  · intro hlt
    rw [Nat.div_eq_of_lt hlt]
    rfl
  · rw [← Int.ofNat_sub h]
    have hdm := Nat.div_add_mod (endTime - sd.start_time) 1000
    have hml : (endTime - sd.start_time) % 1000 < 1000 :=
      Nat.mod_lt _ (by omega)
    omega
  · rw [← Int.ofNat_sub h]
    have hdm := Nat.div_add_mod (endTime - sd.start_time) 1000
    have hml : (endTime - sd.start_time) % 1000 < 1000 :=
      Nat.mod_lt _ (by omega)
    omega

/-- Closed instance of `duration_truncates_sub_microsecond`: a guard started
at 100 ns and destroyed at 600 ns reports a zero duration. -/
theorem duration_truncates_sub_microsecond_witness :
    (600 - sampleSpanData.start_time < 1000
        → (mkRecord sampleSpanData 600).duration_us = 0)
    ∧ 1000 * (mkRecord sampleSpanData 600).duration_us
        ≤ (600 : Int) - (sampleSpanData.start_time : Int)
    ∧ (600 : Int) - (sampleSpanData.start_time : Int)
        < 1000 * ((mkRecord sampleSpanData 600).duration_us + 1) :=
  duration_truncates_sub_microsecond sampleSpanData 600 (by decide)

/-- Digit characters are never a newline. -/
lemma digitToChar_ne_newline (d : Nat) : digitToChar d ≠ '\n' := by
  rw [digitToChar]
  generalize d % 10 = k
  rcases k with _|_|_|_|_|_|_|_|_|k
  case succ.succ.succ.succ.succ.succ.succ.succ.succ =>
    show ('9' : Char) ≠ '\n'
    decide
  all_goals decide

/-- Decimal renderings of naturals contain no newline. -/
lemma newline_not_mem_renderNat (n : Nat) : '\n' ∉ renderNat n := by
  rw [renderNat]
  split
  · decide
  · intro hmem
    rw [List.mem_reverse] at hmem
    obtain ⟨d, _, hch⟩ := List.mem_map.mp hmem
    exact digitToChar_ne_newline d hch

/-- Decimal renderings of integers contain no newline. -/
lemma newline_not_mem_renderInt (i : Int) : '\n' ∉ renderInt i := by
  rw [renderInt]
  split
  · intro hmem
    rcases List.mem_cons.mp hmem with hmem | hmem
    · exact absurd hmem (by decide)
    · exact newline_not_mem_renderNat _ hmem
  · exact newline_not_mem_renderNat _

/-- C7: `emit` produces for each record exactly one self-contained
line-oriented text record — the five fields in order `name`, `span_id`,
`parent_id`, `duration_us`, `thread_id`, a single trailing newline and no
interior newline — and appends exactly that line to the configured
destination: the console by default, the file when one is configured. -/
theorem emit_writes_one_line (r : SpanRecord) (h : '\n' ∉ r.name.data) :
    (∃ body : List Char, serializeChars r = body ++ ['\n'] ∧ '\n' ∉ body)
    ∧ serializeChars r
        = "name=".data ++ r.name.data
          ++ " span_id=".data ++ renderNat r.span_id
          ++ " parent_id=".data ++ renderNat r.parent_id
          ++ " duration_us=".data ++ renderInt r.duration_us
          ++ " thread_id=".data ++ renderNat r.thread_id ++ ['\n']
    ∧ (∀ b : TraceBackend, b.use_file = false →
        (b.write_span (serializeRecord r) true).console
            = b.console ++ [serializeRecord r]
          ∧ (b.write_span (serializeRecord r) true).file_lines = b.file_lines)
    ∧ (∀ b : TraceBackend, b.use_file = true →
        (b.write_span (serializeRecord r) true).file_lines
            = b.file_lines ++ [serializeRecord r]
          ∧ (b.write_span (serializeRecord r) true).console = b.console) := by
  have l1 : '\n' ∉ "name=".data := by decide
  have l2 : '\n' ∉ " span_id=".data := by decide
  have l3 : '\n' ∉ " parent_id=".data := by decide
  have l4 : '\n' ∉ " duration_us=".data := by decide
  have l5 : '\n' ∉ " thread_id=".data := by decide
  refine ⟨⟨_, rfl, ?_⟩, rfl, ?_, ?_⟩
  · simp [List.mem_append, l1, l2, l3, l4, l5, h,
      newline_not_mem_renderNat, newline_not_mem_renderInt]
  · intro b hb
    constructor <;> simp [TraceBackend.write_span, hb]
  · intro b hb
    constructor <;> simp [TraceBackend.write_span, hb]

/-- Closed instance of `emit_writes_one_line`: the serialization of a
concrete record is a single newline-terminated line. -/
theorem emit_writes_one_line_witness :
    ∃ body : List Char,
      serializeChars ⟨"op", 1, 0, 5, 7⟩ = body ++ ['\n'] ∧ '\n' ∉ body :=
  (emit_writes_one_line ⟨"op", 1, 0, 5, 7⟩ (by decide)).1

/-- Sink-failure degradation: the two states agree on everything the
instrumented application can observe (allocator, contexts, live guards,
submitted records, diagnostics) and on the sink configuration, while the
possibly-failing run has written a subsequence of the failure-free run's
output lines. -/
def Degrades (s1 s2 : SysState) : Prop :=
  s1.counter = s2.counter ∧ s1.ctxs = s2.ctxs ∧ s1.live = s2.live
  ∧ s1.records = s2.records ∧ s1.diagnostics = s2.diagnostics
  ∧ s1.backend.use_file = s2.backend.use_file
  ∧ s1.backend.file_path = s2.backend.file_path
  ∧ List.Sublist s1.backend.console s2.backend.console
  ∧ List.Sublist s1.backend.file_lines s2.backend.file_lines

lemma degrades_refl (s : SysState) : Degrades s s :=
  ⟨rfl, rfl, rfl, rfl, rfl, rfl, rfl, List.Sublist.refl _, List.Sublist.refl _⟩

/-- A possibly-failing write degrades against a succeeding write of the same
line. -/
lemma write_span_degrades (b1 b2 : TraceBackend) (line : String) (ok : Bool)
    (huf : b1.use_file = b2.use_file) (hfp : b1.file_path = b2.file_path)
    (hcons : List.Sublist b1.console b2.console)
    (hfl : List.Sublist b1.file_lines b2.file_lines) :
    (b1.write_span line ok).use_file = (b2.write_span line true).use_file
    ∧ (b1.write_span line ok).file_path = (b2.write_span line true).file_path
    ∧ List.Sublist (b1.write_span line ok).console
        (b2.write_span line true).console
    ∧ List.Sublist (b1.write_span line ok).file_lines
        (b2.write_span line true).file_lines := by
  cases ok with
  | false =>
    cases hb : b1.use_file with
    | false =>
      simp [TraceBackend.write_span, ← huf, hb, hfp]
      exact ⟨hcons.trans (List.sublist_append_left _ _), hfl⟩
    | true =>
      simp [TraceBackend.write_span, ← huf, hb, hfp]
      exact ⟨hcons, hfl.trans (List.sublist_append_left _ _)⟩
  | true =>
    cases hb : b1.use_file with
    | false =>
      simp [TraceBackend.write_span, ← huf, hb, hfp]
      exact ⟨hcons, hfl⟩
    | true =>
      simp [TraceBackend.write_span, ← huf, hb, hfp]
      exact ⟨hcons, hfl⟩

lemma degrades_step (s1 s2 : SysState) (e : Event) (ok : Bool)
    (h : Degrades s1 s2) : Degrades (step s1 e ok) (step s2 e true) := by
  obtain ⟨hco, hcx, hlv, hrc, hdg, huf, hfp, hcons, hfl⟩ := h
  cases e with
  | openSpan nm tid tm =>
    exact ⟨by simp [step, hco], by simp [step, hcx, hco],
      by simp [step, hlv, hcx, hco], by simp [step, hrc],
      by simp [step, hdg], by simp [step, huf], by simp [step, hfp],
      by simpa [step] using hcons, by simpa [step] using hfl⟩
  | closeSpan tid tm =>
    have hl2 : s2.live tid = s1.live tid := by rw [hlv]
    cases hl : s1.live tid with
    | nil =>
      have e1 : step s1 (.closeSpan tid tm) ok = s1 := by simp [step, hl]
      have e2 : step s2 (.closeSpan tid tm) true = s2 := by
        simp [step, hl2, hl]
      rw [e1, e2]
      exact ⟨hco, hcx, hlv, hrc, hdg, huf, hfp, hcons, hfl⟩
    | cons sd rest =>
      have hl2' : s2.live tid = sd :: rest := by rw [hl2, hl]
      obtain ⟨wuf, wfp, wcons, wfl⟩ :=
        write_span_degrades s1.backend s2.backend
          (serializeRecord (mkRecord sd tm)) ok huf hfp hcons hfl
      refine ⟨by simp [step, hl, hl2', hco], by simp [step, hl, hl2', hcx],
        by simp [step, hl, hl2', hlv], by simp [step, hl, hl2', hrc],
        by simp [step, hl, hl2', hdg, hcx], ?_, ?_, ?_, ?_⟩ <;>
        simpa [step, hl, hl2'] using (by assumption :
          _)
  | setOutput path =>
    exact ⟨hco, hcx, hlv, hrc, hdg,
      by simp [step, TraceBackend.set_output_file],
      by simp [step, TraceBackend.set_output_file],
      by simpa [step, TraceBackend.set_output_file] using hcons,
      by simpa [step, TraceBackend.set_output_file] using hfl⟩
  | flushEv =>
    exact ⟨hco, hcx, hlv, hrc, hdg, by simpa [step, TraceBackend.flush] using huf,
      by simpa [step, TraceBackend.flush] using hfp,
      by simpa [step, TraceBackend.flush] using hcons,
      by simpa [step, TraceBackend.flush] using hfl⟩

lemma degrades_runF (l : List (Event × Bool)) : ∀ s1 s2 : SysState,
    Degrades s1 s2 →
    Degrades (runF s1 l) (runF s2 (l.map (fun p => (p.1, true)))) := by
  induction l with
  | nil => intro s1 s2 h; exact h
  | cons p rest ih =>
    intro s1 s2 h
    exact ih _ _ (degrades_step _ _ _ _ h)

/-- C9: running any event sequence under any pattern of sink I/O failures is
observationally identical, for the instrumented application, to the
failure-free run — same allocator state, same nesting contexts, same live
guards, same submitted records, same diagnostics — and the produced output is
a subsequence of the failure-free output: failures at worst lose trace lines,
never application state. -/
theorem sink_failures_never_observable (l : List (Event × Bool)) :
    Degrades (runF initState l) (run initState (l.map Prod.fst)) := by
  rw [run, List.map_map]
  have heq : ((fun e => (e, true)) ∘ Prod.fst : Event × Bool → Event × Bool)
      = fun p => (p.1, true) := rfl
  rw [heq]
  exact degrades_runF l initState initState (degrades_refl _)

end Tinytrace
